import Mathlib

/-!
# Verification of the migodi-sdk request core and hashrate order aliasing

Shallow embedding of the TypeScript/JavaScript sources of the `@migodi/sdk`
client library (files `dist/client.js`, `dist/errors.js`,
`dist/resources/base.js`, `dist/resources/hashrate.js`), together with
theorems settling the specification claims about it.

JavaScript objects whose values are strings are modelled as association
lists `Obj = List (String × String)`; an absent key (or a key whose value
is `undefined`) is modelled by `lookup` returning `none`.  JavaScript
truthiness of a possibly-absent string value (`!x` in the source) is
modelled by `truthyStr`.
-/

namespace Migodi

/-- A JavaScript object with string-valued fields, as used for the
hashrate `createOrder` parameter object: an association list from key to
value.  A key that is absent from the list models both a missing key and
a key whose value is `undefined` (the two are indistinguishable to the
truthiness tests and to `JSON.stringify`, which are all the source does
with these objects). -/
abbrev Obj : Type := List (String × String)

/-- `o.getK k` — reading `o[k]`: `some v` if key `k` is present with value
`v`, `none` if absent. -/
def Obj.getK (o : Obj) (k : String) : Option String :=
  (List.find? (fun p => p.1 = k) o).map Prod.snd

/-- `o.hasK k` — the key `k` is present in the object (and hence would be
serialized by `JSON.stringify`). -/
def Obj.hasK (o : Obj) (k : String) : Bool :=
  List.any o (fun p => p.1 = k)

/-- `o.setK k v` — the JavaScript assignment `o[k] = v`: replaces the
value at an existing key, or appends the key at the end. -/
def Obj.setK (o : Obj) (k : String) (v : String) : Obj :=
  if List.any o (fun p => p.1 = k) then
    List.map (fun p => if p.1 = k then (k, v) else p) o
  else
    o ++ [(k, v)]

/-- `o.delK k` — the JavaScript statement `delete o[k]`. -/
def Obj.delK (o : Obj) (k : String) : Obj :=
  List.filter (fun p => ¬(p.1 = k)) o

/-- JavaScript truthiness of a possibly-absent string value: `undefined`
and the empty string are falsy, every other string is truthy.  This is
what `!requestParams.user_pool_id` and friends test in
`hashrate.js`. -/
def truthyStr : Option String → Bool
  | none => false
  | some s => s ≠ ""

/-- An outgoing HTTP request as produced by the resource layer
(`BaseResource.post` in `base.js` forwards to
`client.request('POST', path, body)`). -/
structure HttpRequest where
  method : String
  path : String
  body : Obj
  deriving DecidableEq

/-- Embedding of `HashrateResource.createOrder` (`dist/resources/hashrate.js`):

```js
const requestParams = { ...params };
if (!requestParams.user_pool_id && !requestParams.pool_id) {
  throw new Error('Either user_pool_id or pool_id must be provided');
}
if (requestParams.user_pool_id && requestParams.pool_id) {
  delete requestParams.pool_id;
}
if (!requestParams.user_pool_id && requestParams.pool_id) {
  requestParams.user_pool_id = requestParams.pool_id;
  delete requestParams.pool_id;
}
return this.post('/api/hashrate/order', requestParams);
```

`.error msg` models the thrown validation error (raised before `this.post`
is ever reached); `.ok req` models the call `this.post(...)` with the
request it issues.  In the third branch the assigned value is the string
held by `pool_id`; the guard guarantees it is present, so `getD ""` is
never exercised. -/
def createOrder (params : Obj) : Except String HttpRequest :=
  let requestParams : Obj := params
  if !truthyStr (requestParams.getK "user_pool_id")
      && !truthyStr (requestParams.getK "pool_id") then
    .error "Either user_pool_id or pool_id must be provided"
  else
    let requestParams :=
      if truthyStr (requestParams.getK "user_pool_id")
          && truthyStr (requestParams.getK "pool_id") then
        requestParams.delK "pool_id"
      else requestParams
    let requestParams :=
      if !truthyStr (requestParams.getK "user_pool_id")
          && truthyStr (requestParams.getK "pool_id") then
        ((requestParams.setK "user_pool_id"
            ((requestParams.getK "pool_id").getD "")).delK "pool_id")
      else requestParams
    .ok ⟨"POST", "/api/hashrate/order", requestParams⟩

/-!
## Heap model of `createOrder`

The no-mutation claim is about JavaScript object identity, so the same
function is embedded a second time over an explicit object heap: objects
live at addresses, `{ ...params }` allocates a fresh object, and the
assignment/`delete` statements are in-place writes at the copy's address.
-/

/-- A heap of JavaScript objects, addressed by index of allocation. -/
structure Heap where
  objs : List Obj

/-- Dereference an address (out-of-range addresses read as the empty
object; `createOrderHeap` is only ever applied to valid addresses). -/
def Heap.read (h : Heap) (a : Nat) : Obj :=
  h.objs.getD a []

/-- In-place update of the object at address `a`. -/
def Heap.write (h : Heap) (a : Nat) (o : Obj) : Heap :=
  ⟨h.objs.set a o⟩

/-- Allocate a new object, returning the new heap and its address. -/
def Heap.alloc (h : Heap) (o : Obj) : Heap × Nat :=
  (⟨h.objs ++ [o]⟩, h.objs.length)

/-- Embedding of `HashrateResource.createOrder` over the object heap.
`p` is the address of the caller's `params` object.  Statement for
statement the same code as `createOrder` above, but
`const requestParams = { ...params }` is an allocation, and
`delete requestParams.pool_id` / `requestParams.user_pool_id = ...` are
writes to the copy's address `r`.  Returns the final heap together with
the thrown error or the address of the object handed to `this.post`. -/
def createOrderHeap (h : Heap) (p : Nat) : Heap × Except String Nat :=
  let allocated := h.alloc (h.read p)
  let h1 := allocated.1
  let r := allocated.2
  if !truthyStr ((h1.read r).getK "user_pool_id")
      && !truthyStr ((h1.read r).getK "pool_id") then
    (h1, .error "Either user_pool_id or pool_id must be provided")
  else
    let h2 :=
      if truthyStr ((h1.read r).getK "user_pool_id")
          && truthyStr ((h1.read r).getK "pool_id") then
        h1.write r ((h1.read r).delK "pool_id")
      else h1
    let h3 :=
      if !truthyStr ((h2.read r).getK "user_pool_id")
          && truthyStr ((h2.read r).getK "pool_id") then
        h2.write r ((((h2.read r).setK "user_pool_id"
            (((h2.read r).getK "pool_id").getD "")).delK "pool_id"))
      else h2
    (h3, .ok r)

/-!
## Client construction (`dist/client.js`, `MigodiClient.constructor`)
-/

/-- The `MigodiConfig` interface (`dist/client.d.ts`): `apiKey: string`,
`baseURL?: string`, `timeout?: number`.  `none` models an absent
optional field (or one explicitly set to `undefined`); for `apiKey`,
which is required by the type but checked for truthiness at runtime,
`none` models a missing key. -/
structure MigodiConfig where
  apiKey : Option String
  baseURL : Option String
  timeout : Option Int
  deriving DecidableEq

/-- The private state of a constructed `MigodiClient`: the three fields
assigned in the constructor, never written again anywhere in the
class. -/
structure ClientState where
  apiKey : String
  baseURL : String
  timeout : Int
  deriving DecidableEq

/-- JavaScript truthiness of a possibly-absent number: `undefined`, `0`
(and `NaN`, not representable here) are falsy. -/
def truthyNum : Option Int → Bool
  | none => false
  | some n => n ≠ 0

/-- `a || b` on a possibly-absent string: the left operand when truthy,
otherwise the default. -/
def orDefaultStr (a : Option String) (b : String) : String :=
  match a with
  | none => b
  | some s => if s ≠ "" then s else b

/-- `a || b` on a possibly-absent number. -/
def orDefaultNum (a : Option Int) (b : Int) : Int :=
  match a with
  | none => b
  | some n => if n ≠ 0 then n else b

/-- Embedding of `MigodiClient.constructor` (`dist/client.js`):

```js
if (!config.apiKey) { throw new Error('API key is required'); }
this.apiKey = config.apiKey;
this.baseURL = config.baseURL || 'https://app.migodi.com';
this.timeout = config.timeout || 30000;
```
-/
def mkClient (config : MigodiConfig) : Except String ClientState :=
  if !truthyStr config.apiKey then
    .error "API key is required"
  else
    .ok ⟨config.apiKey.getD "",
         orDefaultStr config.baseURL "https://app.migodi.com",
         orDefaultNum config.timeout 30000⟩

/-!
## JSON values and JavaScript coercions
-/

/-- A JSON value, as produced by `response.json()` / consumed by
`JSON.stringify`.  Also used for the `unknown`-typed `body` and query
values of `MigodiClient.request`. -/
inductive Json where
  | null
  | bool (b : Bool)
  | num (n : Int)
  | str (s : String)
  | arr (elems : List Json)
  | obj (fields : List (String × Json))

/-- JavaScript truthiness of a JSON value: `null`, `false`, `0` and `""`
are falsy; every array and object is truthy. -/
def Json.jsTruthy : Json → Bool
  | .null => false
  | .bool b => b
  | .num n => n ≠ 0
  | .str s => s ≠ ""
  | .arr _ => true
  | .obj _ => true

mutual

/-- The JavaScript string coercion `String(v)` of a JSON value (used by
`String(value)` in the query loop and by the `Error` constructor):
numbers and booleans print canonically, arrays join their coerced
elements with `,` (with `null` printing as the empty string inside an
array), plain objects print as `[object Object]`. -/
def Json.jsToString : Json → String
  | .null => "null"
  | .bool b => cond b "true" "false"
  | .num n => toString n
  | .str s => s
  | .arr xs => String.intercalate "," (Json.jsToStringElems xs)
  | .obj _ => "[object Object]"

/-- Element-wise coercion for array stringification. -/
def Json.jsToStringElems : List Json → List String
  | [] => []
  | j :: rest =>
    (match j with
     | .null => ""
     | j => j.jsToString) :: Json.jsToStringElems rest

end

/-- JSON string escaping for quotes and backslashes. -/
def Json.escape (s : String) : String :=
  String.join (s.data.map fun c =>
    if c = '"' then "\\\""
    else if c = '\\' then "\\\\"
    else String.singleton c)

mutual

/-- `JSON.stringify` of a JSON value (modelled with the standard quote
and backslash escapes; further control-character escaping is not
exercised by any theorem below). -/
def Json.stringify : Json → String
  | .null => "null"
  | .bool b => cond b "true" "false"
  | .num n => toString n
  | .str s => "\"" ++ Json.escape s ++ "\""
  | .arr xs => "[" ++ String.intercalate "," (Json.stringifyElems xs) ++ "]"
  | .obj fs => "\x7b" ++ String.intercalate "," (Json.stringifyFields fs) ++ "\x7d"

/-- Stringify the elements of an array. -/
def Json.stringifyElems : List Json → List String
  | [] => []
  | j :: rest => Json.stringify j :: Json.stringifyElems rest

/-- Stringify the fields of an object. -/
def Json.stringifyFields : List (String × Json) → List String
  | [] => []
  | (k, v) :: rest =>
    ("\"" ++ Json.escape k ++ "\":" ++ Json.stringify v) :: Json.stringifyFields rest

end

/-- JavaScript member access `v[k]` on a decoded JSON value:
`.ok (some w)` when `v` is an object carrying the field, `.ok none`
(i.e. `undefined`) when `v` is an object without the field or a
non-null primitive/array, and `.error msg` for the `TypeError` thrown
when `v` is `null`. -/
def jsMember (v : Json) (k : String) : Except String (Option Json) :=
  match v with
  | .null => .error "TypeError: Cannot read properties of null"
  | .obj fs => .ok ((fs.find? (fun p => p.1 = k)).map Prod.snd)
  | _ => .ok none

/-- `v || dflt` followed by string coercion, as in
`error.message || fallback` handed to the `Error` constructor: the
field's value coerced to a string when present and truthy, the default
otherwise.  (The TypeScript declaration types `code` as `string`, so
the coercion on the `code` side is the identity for well-typed
bodies.) -/
def jsOrString (v : Option Json) (dflt : String) : String :=
  match v with
  | some j => if j.jsTruthy then j.jsToString else dflt
  | none => dflt

/-!
## Error taxonomy (`dist/errors.js`)
-/

/-- The data carried by a `MigodiError` (`dist/errors.js`): the `message`
inherited from `Error`, the machine-readable `code`, and the optional
HTTP `status`.  The subclasses differ only in the defaults they pass to
this constructor (and in their `name` string, which nothing in the
client reads). -/
structure MigodiError where
  message : String
  code : String
  status : Option Nat
  deriving DecidableEq

/-- `new MigodiAuthError(message = 'Authentication failed')`:
`super(message, 'AUTH_ERROR', 401)`. -/
def MigodiAuthError (message : String := "Authentication failed") : MigodiError :=
  ⟨message, "AUTH_ERROR", some 401⟩

/-- `new MigodiRateLimitError(message = 'Rate limit exceeded')`:
`super(message, 'RATE_LIMIT', 429)`. -/
def MigodiRateLimitError (message : String := "Rate limit exceeded") : MigodiError :=
  ⟨message, "RATE_LIMIT", some 429⟩

/-!
## The request core (`dist/client.js`, `MigodiClient.request`)

The `await fetch(...)` call is the code's only interaction with the
outside world; its possible outcomes are modelled by `FetchOutcome`.
Everything the method does with an outcome — the `response.ok` / 401 /
429 branching, the body decoding, the `try`/`catch` rewrapping and the
`clearTimeout` calls — is code of the repository and is embedded
faithfully below.
-/

/-- Outcome of the `await fetch(url, ...)` call in `MigodiClient.request`.

* `response status body` — an HTTP response arrived; `body` is what
  `await response.json()` yields: `.ok v` the decoded JSON value,
  `.error m` the message of the `SyntaxError` the promise rejects with
  when the body is not valid JSON.
* `abortError` — the configured timeout elapsed first: the `setTimeout`
  callback ran `controller.abort()` and the in-flight `fetch` rejected
  with an error named `AbortError`.
* `failure m` — `fetch` rejected with any other error (DNS failure,
  connection refused, ...), carrying message `m`. -/
inductive FetchOutcome where
  | response (status : Nat) (body : Except String Json)
  | abortError
  | failure (message : String)

/-- A value thrown inside the `try` block of `request`, classified the
way the `catch` block classifies it: a `MigodiError`
(`error instanceof MigodiError`), an error named `AbortError`, or any
other error with its message. -/
inductive Thrown where
  | migodi (e : MigodiError)
  | abort
  | other (message : String)

/-- `response.ok`: the HTTP status is in the inclusive range 200–299. -/
def responseOk (status : Nat) : Bool :=
  200 ≤ status && status ≤ 299

/-- The `try` block of `MigodiClient.request`, from the `fetch` call to
`return response.json()`:

```js
const response = await fetch(url.toString(), {...});
clearTimeout(timeoutId);
if (!response.ok) {
  if (response.status === 401) { throw new MigodiAuthError(); }
  if (response.status === 429) { throw new MigodiRateLimitError(); }
  const error = await response.json().catch(() => ({}));
  throw new MigodiError(error.message || `Request failed with status ${response.status}`,
                        error.code || 'API_ERROR', response.status);
}
return response.json();
```

Returns the normal result or the thrown value, paired with whether the
`clearTimeout(timeoutId)` inside the `try` block has run (it runs as
soon as `fetch` resolves; when `fetch` itself rejects, only the `catch`
block clears the timer).  `error.message` / `error.code` are `jsMember`
accesses: they throw a `TypeError` when the decoded body is JSON
`null`, and the arguments are evaluated left to right. -/
def tryBlock : FetchOutcome → Except Thrown Json × Bool
  | .abortError => (.error .abort, false)
  | .failure m => (.error (.other m), false)
  | .response status body =>
    if responseOk status then
      match body with
      | .ok v => (.ok v, true)
      | .error m => (.error (.other m), true)
    else if status = 401 then
      (.error (.migodi (MigodiAuthError)), true)
    else if status = 429 then
      (.error (.migodi (MigodiRateLimitError)), true)
    else
      let error : Json :=
        match body with
        | .ok v => v
        | .error _ => .obj []
      match jsMember error "message" with
      | .error m => (.error (.other m), true)
      | .ok msgField =>
        match jsMember error "code" with
        | .error m => (.error (.other m), true)
        | .ok codeField =>
          (.error (.migodi
            ⟨jsOrString msgField s!"Request failed with status {status}",
             jsOrString codeField "API_ERROR",
             some status⟩), true)

/-- The `catch` block of `MigodiClient.request` (after its own
`clearTimeout(timeoutId)`):

```js
if (error instanceof MigodiError) { throw error; }
if (error instanceof Error && error.name === 'AbortError') {
  throw new MigodiError('Request timeout', 'TIMEOUT');
}
throw new MigodiError(error instanceof Error ? error.message : 'Unknown error', 'NETWORK_ERROR');
```
-/
def catchBlock : Thrown → MigodiError
  | .migodi e => e
  | .abort => ⟨"Request timeout", "TIMEOUT", none⟩
  | .other m => ⟨m, "NETWORK_ERROR", none⟩

/-- What `MigodiClient.request` delivers for a given fetch outcome: the
returned JSON value or the thrown `MigodiError`, plus whether
`clearTimeout(timeoutId)` ran before the method finished. -/
structure RequestResult where
  result : Except MigodiError Json
  timerCleared : Bool

/-- The `try`/`catch` of `MigodiClient.request` assembled: a thrown
value passes through the `catch` block (which always runs
`clearTimeout(timeoutId)` first), a normal return does not. -/
def request (outcome : FetchOutcome) : RequestResult :=
  match tryBlock outcome with
  | (.ok v, cleared) => ⟨.ok v, cleared⟩
  | (.error t, _) => ⟨.error (catchBlock t), true⟩

/-!
## Query serialization and request construction (`dist/client.js`)
-/

/-- A query mapping as accepted by `request`
(`query?: Record<string, unknown>`): key/value entries in insertion
order, `none` modelling a value that is `undefined`. -/
abbrev Query : Type := List (String × Option Json)

/-- The query loop of `MigodiClient.request`:

```js
Object.entries(query).forEach(([key, value]) => {
  if (value !== undefined) {
    url.searchParams.append(key, String(value));
  }
});
```

The result
is the list of `(key, String(value))` pairs appended to
`url.searchParams`, in order.  Note the test is `value !== undefined`,
not truthiness: `null`, `0`, `false` and `""` are all appended. -/
def serializeQuery (query : Query) : List (String × String) :=
  query.filterMap (fun kv =>
    match kv.2 with
    | none => none
    | some v => some (kv.1, v.jsToString))

/-- The `body` option of the `fetch` call:
`body: body ? JSON.stringify(body) : undefined` — the JSON-serialized
payload when `body` is a truthy value, no payload otherwise (`none`
models the argument being absent, `undefined` or — via the facades —
never supplied). -/
def fetchBody (body : Option Json) : Option String :=
  match body with
  | some b => if b.jsTruthy then some b.stringify else none
  | none => none

/-- The headers of every `fetch` call issued by `MigodiClient.request`. -/
def fetchHeaders (apiKey : String) : List (String × String) :=
  [("Authorization", "Bearer " ++ apiKey),
   ("Content-Type", "application/json"),
   ("Accept", "application/json")]

/-!
## The resource layer (`dist/resources/base.js`)

Each helper forwards to `client.request(method, path, body?, query?)`;
`ClientCall` records the four arguments of that call.
-/

/-- The argument tuple of a `client.request` invocation made by a
`BaseResource` helper. -/
structure ClientCall where
  method : String
  path : String
  body : Option Json
  query : Option Query

/-- `BaseResource.get`: `this.client.request('GET', path, undefined, query)`. -/
def BaseResource.get (path : String) (query : Option Query) : ClientCall :=
  ⟨"GET", path, none, query⟩

/-- `BaseResource.post`: `this.client.request('POST', path, body)`. -/
def BaseResource.post (path : String) (body : Option Json) : ClientCall :=
  ⟨"POST", path, body, none⟩

/-- `BaseResource.patch`: `this.client.request('PATCH', path, body)`. -/
def BaseResource.patch (path : String) (body : Option Json) : ClientCall :=
  ⟨"PATCH", path, body, none⟩

/-- `BaseResource.put`: `this.client.request('PUT', path, body)`. -/
def BaseResource.put (path : String) (body : Option Json) : ClientCall :=
  ⟨"PUT", path, body, none⟩

/-- `BaseResource.delete`: `this.client.request('DELETE', path)`. -/
def BaseResource.delete (path : String) : ClientCall :=
  ⟨"DELETE", path, none, none⟩

/-- The field selection of the amended claim, in its words: the body's
field `k` when the body decoded to a value carrying it (an object with
that key), `none` when decoding failed (the `.catch(() => ({}))`
default has no fields) or the decoded value has no such field. -/
def decodedField (body : Except String Json) (k : String) : Option Json :=
  match body with
  | .error _ => none
  | .ok (.obj fs) => (fs.find? (fun p => p.1 = k)).map Prod.snd
  | .ok _ => none

end Migodi

namespace Migodi

/-- C1: the claim states that for every input passing validation the
outgoing payload contains the `user_pool_id` key and never a `pool_id`
key.  The code contradicts this (and its own inline comment "At this
point, only user_pool_id will be present in the request"): for the
input `{user_pool_id: "A", pool_id: ""}` validation passes
(`user_pool_id` is truthy), but both deletion branches are skipped —
the both-present branch because `""` is falsy, the migration branch
because `"A"` is truthy — so the payload handed to
`this.post('/api/hashrate/order', ...)` still contains the `pool_id`
key, which `JSON.stringify` serializes. -/
theorem claim_C1_pool_id_key_reaches_payload :
    createOrder [("user_pool_id", "A"), ("pool_id", "")]
      = .ok ⟨"POST", "/api/hashrate/order", [("user_pool_id", "A"), ("pool_id", "")]⟩
    ∧ Obj.hasK [("user_pool_id", "A"), ("pool_id", "")] "pool_id" = true :=
  ⟨rfl, rfl⟩

/-- C2: when neither `user_pool_id` nor `pool_id` is present in the
input, `createOrder` fails with the validation error, and no request is
produced (the `.error` result is returned before the `this.post` call
site is reached). -/
theorem claim_C2_validation_fails_fast (params : Obj)
    (hu : params.getK "user_pool_id" = none)
    (hp : params.getK "pool_id" = none) :
    createOrder params = .error "Either user_pool_id or pool_id must be provided" := by
  simp [createOrder, hu, hp, truthyStr]

/-- Witness for C2 at the concrete input `{coin: "BTC"}`. -/
theorem claim_C2_witness :
    createOrder [("coin", "BTC")]
      = .error "Either user_pool_id or pool_id must be provided" :=
  claim_C2_validation_fails_fast [("coin", "BTC")] rfl rfl

/-- Reading at an address below the allocation frontier is unaffected by
appending a fresh object. -/
theorem Heap.read_alloc (h : Heap) (o : Obj) (p : Nat) (hp : p < h.objs.length) :
    (Heap.mk (h.objs ++ [o])).read p = h.read p := by
  unfold Heap.read
  exact List.getD_append _ _ _ _ hp

/-- Writing at one address leaves reads at any other address unchanged. -/
theorem Heap.read_write_ne (h : Heap) (a b : Nat) (o : Obj) (hne : b ≠ a) :
    (h.write a o).read b = h.read b := by
  unfold Heap.read Heap.write
  rw [List.getD_eq_getElem?_getD, List.getD_eq_getElem?_getD,
      List.getElem?_set_ne (Ne.symm hne)]

/-- C3: `createOrder` never mutates the caller's `params` object — in
the heap model, the object at the caller's address is unchanged after
the call, whichever aliasing branch was taken, because `{ ...params }`
allocates a fresh object at the allocation frontier and every
assignment/`delete` writes only to that fresh address. -/
theorem claim_C3_input_object_not_mutated (h : Heap) (p : Nat)
    (hp : p < h.objs.length) :
    ((createOrderHeap h p).1).read p = h.read p := by
  have hne : p ≠ h.objs.length := Nat.ne_of_lt hp
  have halloc : ∀ o : Obj, (Heap.mk (h.objs ++ [o])).read p = h.read p :=
    fun o => Heap.read_alloc h o p hp
  have hwrite : ∀ (hh : Heap) (o : Obj),
      (hh.write h.objs.length o).read p = hh.read p :=
    fun hh o => Heap.read_write_ne hh _ p o hne
  simp only [createOrderHeap, Heap.alloc]
  split_ifs <;> simp [hwrite, halloc]

/-- Witness for C3 on a one-object heap holding `{pool_id: "B"}`. -/
theorem claim_C3_witness :
    ((createOrderHeap ⟨[[("pool_id", "B")]]⟩ 0).1).read 0 = [("pool_id", "B")] := by
  have h := claim_C3_input_object_not_mutated ⟨[[("pool_id", "B")]]⟩ 0 (by decide)
  rw [h]
  rfl

/-- C4: a pair appears among the serialized query parameters exactly
when the query mapping holds an entry with that key and a defined
value whose `String(...)` coercion is that parameter value — entries
with an `undefined` value contribute nothing, and every defined value
(including falsy ones such as `0` or `""`) contributes its coerced
string. -/
theorem claim_C4_query_filter (q : Query) (k s : String) :
    (k, s) ∈ serializeQuery q ↔ ∃ v : Json, (k, some v) ∈ q ∧ s = v.jsToString := by
  unfold serializeQuery
  rw [List.mem_filterMap]
  constructor
  · rintro ⟨⟨k', v'⟩, hmem, hf⟩
    cases v' with
    | none => simp at hf
    | some v =>
      simp only [Option.some.injEq, Prod.mk.injEq] at hf
      obtain ⟨hk, hs⟩ := hf
      subst hk
      exact ⟨v, hmem, hs.symm⟩
  · rintro ⟨v, hmem, rfl⟩
    exact ⟨(k, some v), hmem, rfl⟩

/-- Witness for C4: the falsy-but-defined value `0` is serialized as
`"0"` while an `undefined` entry in the same mapping is skipped. -/
theorem claim_C4_witness :
    ("a", "0") ∈ serializeQuery [("b", none), ("a", some (Json.num 0))] :=
  (claim_C4_query_filter [("b", none), ("a", some (Json.num 0))] "a" "0").mpr
    ⟨Json.num 0, List.Mem.tail _ (List.Mem.head _), rfl⟩

/-- C5: a 401 response yields the fixed Auth error (code `AUTH_ERROR`,
httpStatus 401) and a 429 response the fixed RateLimit error (code
`RATE_LIMIT`, httpStatus 429), whatever the body holds (valid JSON or
not — the body is never read on these branches); and the `catch` block
passes any thrown `MigodiError` through unchanged. -/
theorem claim_C5_auth_rate_limit :
    (∀ body : Except String Json,
        request (.response 401 body)
          = ⟨.error ⟨"Authentication failed", "AUTH_ERROR", some 401⟩, true⟩)
    ∧ (∀ body : Except String Json,
        request (.response 429 body)
          = ⟨.error ⟨"Rate limit exceeded", "RATE_LIMIT", some 429⟩, true⟩)
    ∧ (∀ e : MigodiError, catchBlock (.migodi e) = e) :=
  ⟨fun _ => rfl, fun _ => rfl, fun _ => rfl⟩

/-- Inside the `try` block, the timer is already cleared on every path
that starts from a resolved `fetch` (the `clearTimeout` directly after
`await fetch`). -/
theorem tryBlock_response_clears_timer (status : Nat) (body : Except String Json) :
    (tryBlock (.response status body)).2 = true := by
  cases body with
  | error m =>
    simp only [tryBlock]
    split_ifs <;> rfl
  | ok v =>
    simp only [tryBlock]
    split_ifs
    · rfl
    · rfl
    · rfl
    · cases v <;> rfl

/-- A `request` run whose `try` block cleared the timer reports the
timer cleared (the `catch` block clears it in every other case). -/
theorem request_timerCleared_of_tryBlock (o : FetchOutcome)
    (h : (tryBlock o).2 = true) :
    (request o).timerCleared = true := by
  unfold request
  rcases htb : tryBlock o with ⟨res, cleared⟩
  rw [htb] at h
  cases res <;> simp_all

/-- C6: when the timeout elapses first — the `setTimeout` callback runs
`controller.abort()` and the in-flight `fetch` rejects with an
`AbortError` — the call fails with code `TIMEOUT` and no httpStatus;
and on every path (success or failure, fetch resolved or rejected) the
timer ends up cleared, by the `clearTimeout` after `await fetch` or the
one at the top of the `catch` block. -/
theorem claim_C6_timeout :
    request .abortError = ⟨.error ⟨"Request timeout", "TIMEOUT", none⟩, true⟩
    ∧ ∀ outcome : FetchOutcome, (request outcome).timerCleared = true := by
  refine ⟨rfl, fun o => ?_⟩
  cases o with
  | abortError => rfl
  | failure m => rfl
  | response status body =>
    exact request_timerCleared_of_tryBlock _ (tryBlock_response_clears_timer status body)

/-- C7 counterexample: the claim says the error message is the `message`
field of the JSON body whenever that field is available.  For status
500 with body `{"message": ""}` the field is available (it decodes to
the empty string), yet `error.message || fallback` discards the falsy
empty string, so the raised error carries the fallback message and the
fallback code, not the extracted field. -/
theorem claim_C7_counterexample :
    request (.response 500 (.ok (Json.obj [("message", Json.str "")])))
      = ⟨.error ⟨"Request failed with status 500", "API_ERROR", some 500⟩, true⟩
    ∧ jsMember (Json.obj [("message", Json.str "")]) "message" = .ok (some (Json.str ""))
    ∧ "Request failed with status 500" ≠ "" :=
  ⟨rfl, rfl, by decide⟩

/-- C7 amended: for every response whose status is neither a success
(200–299) nor 401 nor 429, and whose body does not decode to JSON
`null` (on `null` the member access itself throws and the failure is
re-wrapped as `NETWORK_ERROR` instead), the call fails with a generic
error whose httpStatus is the response status, whose message is the
body's `message` field (string-coerced) when that field is present and
truthy and otherwise `"Request failed with status <status>"`, and whose
code is the body's `code` field (string-coerced) when present and
truthy and otherwise `API_ERROR`. -/
theorem claim_C7_generic_error (status : Nat) (body : Except String Json)
    (hok : responseOk status = false)
    (h401 : status ≠ 401) (h429 : status ≠ 429)
    (hnull : body ≠ .ok Json.null) :
    request (.response status body)
      = ⟨.error ⟨jsOrString (decodedField body "message")
                   s!"Request failed with status {status}",
                 jsOrString (decodedField body "code") "API_ERROR",
                 some status⟩, true⟩ := by
  unfold request
  simp only [tryBlock, hok, Bool.false_eq_true, if_false, h401, h429, if_neg, ite_false]
  cases body with
  | error m => rfl
  | ok v =>
    cases v with
    | null => exact absurd rfl hnull
    | bool b => rfl
    | num n => rfl
    | str s => rfl
    | arr xs => rfl
    | obj fs => rfl

/-- Witness for C7 at status 500 with body `{"message": "boom"}`. -/
theorem claim_C7_witness :
    request (.response 500 (.ok (Json.obj [("message", Json.str "boom")])))
      = ⟨.error ⟨"boom", "API_ERROR", some 500⟩, true⟩ := by
  have h := claim_C7_generic_error 500 (.ok (Json.obj [("message", Json.str "boom")]))
    (by decide) (by decide) (by decide)
    (fun hh => Json.noConfusion (Except.ok.inj hh))
  rw [h]
  rfl

/-- C8: constructing the client with a missing or empty `apiKey` fails
with the validation error; with a non-empty one it succeeds, keeping
that key (every request's `Authorization` header carries it as a Bearer
token), and an unsupplied `baseURL` or `timeout` comes out as the fixed
defaults `https://app.migodi.com` and 30000. -/
theorem claim_C8_constructor (c : MigodiConfig) :
    (truthyStr c.apiKey = false → mkClient c = .error "API key is required")
    ∧ (∀ s, c.apiKey = some s → s ≠ "" →
        ∃ st : ClientState, mkClient c = .ok st ∧ st.apiKey = s
          ∧ (c.baseURL = none → st.baseURL = "https://app.migodi.com")
          ∧ (c.timeout = none → st.timeout = 30000)
          ∧ ("Authorization", "Bearer " ++ s) ∈ fetchHeaders st.apiKey) := by
  constructor
  · intro h
    simp [mkClient, h]
  · intro s hs hne
    refine ⟨⟨s, orDefaultStr c.baseURL "https://app.migodi.com",
             orDefaultNum c.timeout 30000⟩, ?_, rfl, ?_, ?_, ?_⟩
    · simp [mkClient, hs, truthyStr, hne]
    · intro hb
      simp [orDefaultStr, hb]
    · intro ht
      simp [orDefaultNum, ht]
    · exact List.Mem.head _

/-- Witness for C8 at the configuration `{apiKey: "key"}`. -/
theorem claim_C8_witness :
    mkClient ⟨some "key", none, none⟩ = .ok ⟨"key", "https://app.migodi.com", 30000⟩ := by
  rcases (claim_C8_constructor ⟨some "key", none, none⟩).2 "key" rfl (by decide) with
    ⟨⟨a, b, t⟩, hok, hkey, hbase, htime, -⟩
  have hb := hbase rfl
  have ht := htime rfl
  dsimp only at hkey hb ht
  subst hkey hb ht
  exact hok

/-- C9: the requests built by `BaseResource.get` and
`BaseResource.delete` hand no body to `client.request`, so the `fetch`
call carries no payload (`body ? JSON.stringify(body) : undefined`
yields `undefined`); the body-carrying helpers serialize a supplied
(truthy) body with `JSON.stringify`. -/
theorem claim_C9_body_only_for_body_methods (path : String) (q : Option Query) (b : Json) :
    fetchBody (BaseResource.get path q).body = none
    ∧ fetchBody (BaseResource.delete path).body = none
    ∧ (b.jsTruthy = true →
        fetchBody (BaseResource.post path (some b)).body = some b.stringify
        ∧ fetchBody (BaseResource.put path (some b)).body = some b.stringify
        ∧ fetchBody (BaseResource.patch path (some b)).body = some b.stringify) := by
  refine ⟨rfl, rfl, fun h => ⟨?_, ?_, ?_⟩⟩ <;>
    simp [fetchBody, BaseResource.post, BaseResource.put, BaseResource.patch, h]

/-- Witness for C9 with the body `{"coin": "BTC"}`. -/
theorem claim_C9_witness :
    fetchBody (BaseResource.post "/api/hashrate/order"
        (some (Json.obj [("coin", Json.str "BTC")]))).body
      = some (Json.stringify (Json.obj [("coin", Json.str "BTC")])) :=
  ((claim_C9_body_only_for_body_methods "/api/hashrate/order" none
      (Json.obj [("coin", Json.str "BTC")])).2.2 rfl).1

/-- C10: a present-but-falsy configuration value is silently replaced by
the default — `baseURL: ""` becomes `https://app.migodi.com` and
`timeout: 0` becomes 30000 — and consequently no successfully
constructed client ever has timeout 0. -/
theorem claim_C10_falsy_config_defaults :
    mkClient ⟨some "key2", some "", some 0⟩
      = .ok ⟨"key2", "https://app.migodi.com", 30000⟩
    ∧ ∀ (c : MigodiConfig) (st : ClientState), mkClient c = .ok st → st.timeout ≠ 0 := by
  refine ⟨rfl, fun c st h => ?_⟩
  unfold mkClient at h
  split_ifs at h
  injection h with h2
  subst h2
  dsimp only
  unfold orDefaultNum
  rcases c.timeout with - | n
  · decide
  · dsimp only
    split_ifs with hn
    · exact hn
    · decide

/-- Witness for C10: a client built with `timeout: 5` has a non-zero
timeout, by the theorem applied at that configuration. -/
theorem claim_C10_witness :
    (⟨"key2", "https://app.migodi.com", 5⟩ : ClientState).timeout ≠ 0 :=
  claim_C10_falsy_config_defaults.2 ⟨some "key2", none, some 5⟩ _ rfl

end Migodi
